import Mathlib

/-!
# Verification of the `web_voice` client library

A shallow embedding, in Lean 4, of the two source files of the `web_voice`
repository (`src/web_voice.js` and the bundled audio-recorder polyfill that
ships in the same file), together with theorems settling the frozen claims
about it.

Modelling conventions:

* JavaScript dynamic values that cross the service boundary are modelled by
  the inductive type `JsonV`.  JS `undefined` (a missing property) is
  modelled by `Option JsonV = none` at use sites.
* Audio samples are JS doubles; they are modelled as rationals.  The only
  arithmetic the encoder performs on them is `x * 32768` (exact in binary64
  for the relevant range, since 32768 is a power of two) followed by
  `Math.floor`, so the rational model computes the same 16-bit values as the
  JS code.
* Machine integers produced by the encoder are modelled as `Int` with the
  two's-complement serialisation made explicit (`% 65536`).
* JS exceptions are modelled explicitly: a handler that can throw returns a
  flag (or `Except`), and a function returns its updated state only along
  the non-throwing path, mirroring the fact that in the JS source every
  state mutation happens after the throwing expressions.
* Event-handler side effects (WebSocket sends, user callbacks) are returned
  as an ordered list of `Emit` values.
-/

namespace WebVoice

/-- Dynamic JSON-ish values (the payloads JS passes around). -/
inductive JsonV where
  | jnull
  | jbool (b : Bool)
  | jnum (q : ℚ)
  | jstr (s : String)
  | jarr (elems : List JsonV)
  | jobj (fields : List (String × JsonV))

mutual

/-- Structural equality on `JsonV` (SameValueZero on primitives; for the
compound cases the JS `Map` would compare references, but no claim depends
on that corner, and the only keys the code ever uses are numbers). -/
def jeq : JsonV → JsonV → Bool
  | .jnull, .jnull => true
  | .jbool a, .jbool b => a == b
  | .jnum a, .jnum b => a == b
  | .jstr a, .jstr b => a == b
  | .jarr a, .jarr b => jeqList a b
  | .jobj a, .jobj b => jeqFields a b
  | _, _ => false

def jeqList : List JsonV → List JsonV → Bool
  | [], [] => true
  | a :: as_, b :: bs => jeq a b && jeqList as_ bs
  | _, _ => false

def jeqFields : List (String × JsonV) → List (String × JsonV) → Bool
  | [], [] => true
  | (k1, v1) :: as_, (k2, v2) :: bs => k1 == k2 && jeq v1 v2 && jeqFields as_ bs
  | _, _ => false

end

/-- JS property read `o.k`: `some v` when the property is present, `none`
for `undefined` (absent property, or receiver not an object). -/
def jGet (o : JsonV) (k : String) : Option JsonV :=
  match o with
  | .jobj fields => fields.lookup k
  | _ => none

/-- JS `Object.prototype.hasOwnProperty.call(o, k)`. -/
def jHas (o : JsonV) (k : String) : Bool :=
  match o with
  | .jobj fields => fields.any (fun p => p.1 == k)
  | _ => false

/-- A `Word` as built by `wordFromJson` in `web_voice.js`: the four data
fields are copied from the wire word unchecked (hence dynamic values, with
`none` playing the role of JS `undefined`), while `is_final` is the boolean
the caller supplies. -/
structure Word where
  text : Option JsonV
  start_ms : Option JsonV
  duration_ms : Option JsonV
  speaker : Option JsonV
  is_final : Bool

/-- The value stored in the speakers map: `{ speaker: jsSpeaker.spk, name:
jsSpeaker.nm }`. -/
structure SpeakerEntry where
  speaker : Option JsonV
  name : Option JsonV

/-- The `Result` record of `web_voice.js`. -/
structure Result where
  words : List Word
  final_proc_time_ms : Option JsonV
  total_proc_time_ms : Option JsonV
  speakers : List (Option JsonV × SpeakerEntry)

/-- `wordFromJson(jsWord, isFinal)` from `web_voice.js`. -/
def wordFromJson (jsWord : JsonV) (isFinal : Bool) : Word :=
  { text := jGet jsWord "t"
    start_ms := jGet jsWord "s"
    duration_ms := jGet jsWord "d"
    speaker := jGet jsWord "spk"
    is_final := isFinal }

/-- JS `Map.prototype.set` on the insertion-ordered association list that
models the speakers map: update in place if the key is present, append
otherwise. -/
def mapSet (m : List (Option JsonV × SpeakerEntry)) (k : Option JsonV)
    (v : SpeakerEntry) : List (Option JsonV × SpeakerEntry) :=
  if m.any (fun p => optJeq p.1 k) then
    m.map (fun p => if optJeq p.1 k then (p.1, v) else p)
  else
    m ++ [(k, v)]
where
  optJeq : Option JsonV → Option JsonV → Bool
    | none, none => true
    | some a, some b => jeq a b
    | _, _ => false

/-- The speakers map built by `resultFromResponse` from the `spks` array. -/
def speakersFromSpks (spks : List JsonV) : List (Option JsonV × SpeakerEntry) :=
  spks.foldl
    (fun m jsSpeaker =>
      mapSet m (jGet jsSpeaker "spk")
        { speaker := jGet jsSpeaker "spk", name := jGet jsSpeaker "nm" })
    []

/-- `response.fw` viewed as an array, when `forEach` would succeed on it.
`none` models the `TypeError` raised by `xs.forEach` when `xs` is absent or
not an array. -/
def asArr (v : Option JsonV) : Option (List JsonV) :=
  match v with
  | some (.jarr elems) => some elems
  | _ => none

/-- `resultFromResponse(response)` from `web_voice.js`.  `Except.error ()`
models the JS exception raised by `response.fw.forEach` /
`response.nfw.forEach` / `response.spks.forEach` when the relevant property
is not an array (in particular when `fw` or `nfw` is missing); no session
state is touched by this function, so the several throw sites are
observationally one. -/
def resultFromResponse (response : JsonV) : Except Unit Result :=
  match asArr (jGet response "fw"), asArr (jGet response "nfw") with
  | some fw, some nfw =>
    match (if jHas response "spks" then
        (asArr (jGet response "spks")).map speakersFromSpks
      else some []) with
    | some speakers =>
      Except.ok
        { words := fw.map (fun jsWord => wordFromJson jsWord true)
            ++ nfw.map (fun jsWord => wordFromJson jsWord false)
          final_proc_time_ms := jGet response "fpt"
          total_proc_time_ms := jGet response "tpt"
          speakers := speakers }
    | none => Except.error ()
  | _, _ => Except.error ()

/-- `initialResult()` from `web_voice.js`. -/
def initialResult : Result :=
  { words := []
    final_proc_time_ms := some (.jnum 0)
    total_proc_time_ms := some (.jnum 0)
    speakers := [] }

/-- The trailing-non-final pop loop of `_updateResult`:
`while (words.length > 0 && !words[words.length - 1].is_final) words.pop()`. -/
def dropTrailingNonFinal (ws : List Word) : List Word :=
  (ws.reverse.dropWhile (fun w => !w.is_final)).reverse

/-- `_updateResult(newResult)` from `web_voice.js`, as a function of the
current result (the pop loop, the appends, and the three overwrites). -/
def updateResult (current newResult : Result) : Result :=
  { words := dropTrailingNonFinal current.words ++ newResult.words
    final_proc_time_ms := newResult.final_proc_time_ms
    total_proc_time_ms := newResult.total_proc_time_ms
    speakers := newResult.speakers }

/-! ## The `pcm_s16leEncoder` worker (audio-recorder polyfill) -/

/-- One sample of `pcm_s16leEncoder.encode`:
`Math.max(-32768, Math.min(32767, Math.floor(buffer[i] * 32768)))`.
Samples are binary64 floats; multiplying by the power of two 32768 is exact,
so the rational model computes the same value. -/
def sampleInt16 (x : ℚ) : ℤ :=
  max (-32768) (min 32767 ⌊x * 32768⌋)

/-- The two bytes `view.setInt16(byteOffset, sample, true)` stores for one
sample: little-endian two's complement. -/
def sampleBytes (x : ℚ) : List ℕ :=
  [(sampleInt16 x % 65536).toNat % 256, (sampleInt16 x % 65536).toNat / 256]

/-- The `Uint8Array` that the `for` loop of `encode` fills from a sample
block: two little-endian bytes per sample, in sample order. -/
def encodeBlock (buffer : List ℚ) : List ℕ :=
  (buffer.map sampleBytes).flatten

/-- The worker-local state of `pcm_s16leEncoder`: the chunk list `buffers`
and the all-zero-prefix flag `initialZeros`. -/
structure Encoder where
  buffers : List (List ℕ)
  initialZeros : Bool

/-- The state the worker starts in (`buffers = []`, `initialZeros = true`). -/
def Encoder.start : Encoder :=
  { buffers := [], initialZeros := true }

/-- `encode(buffer, removeInitialZeros)` from the polyfill worker.
The zero scan `while (i < length && view.getInt16(i * 2) == 0) i++` reads
the stored 16-bit value (big-endian read, but a zero test is
endianness-independent), which is zero exactly when `sampleInt16` of the
sample is zero.  NOTE, faithful to the source: in the truncation branch the
JS executes `if (i > 0) buffer = buffer.slice(i)`, which reassigns a local
that is never read again — the chunk actually pushed is the untruncated
`array`. -/
def encode (e : Encoder) (buffer : List ℚ) (removeInitialZeros : Bool) : Encoder :=
  let array := encodeBlock buffer
  if removeInitialZeros && e.initialZeros then
    let i := (buffer.takeWhile (fun x => sampleInt16 x == 0)).length
    if i = buffer.length then
      e
    else
      { buffers := e.buffers ++ [array], initialZeros := false }
  else
    { buffers := e.buffers ++ [array], initialZeros := e.initialZeros }

/-- The inner loop of `dump`: having already admitted chunks of total
length `acc` into the current group, keep admitting further chunks while
the running total stays within `maxOutputSize`
(`if (numBuffers > 0 && length + buffer.length > maxOutputSize) break`).
Returns the further admitted chunks and the unconsumed rest. -/
def extendGroup (maxOutputSize : ℕ) : ℕ → List (List ℕ) → List (List ℕ) × List (List ℕ)
  | _, [] => ([], [])
  | acc, c :: rest =>
    if acc + c.length > maxOutputSize then ([], c :: rest)
    else
      let p := extendGroup maxOutputSize (acc + c.length) rest
      (c :: p.1, p.2)

/-- The outer loop of `dump`: split the chunk list into consecutive groups;
a group's first chunk is admitted unconditionally (`numBuffers > 0` guards
the break), further chunks via `extendGroup`. -/
def groupChunks (maxOutputSize : ℕ) : List (List ℕ) → List (List (List ℕ))
  | [] => []
  | c :: rest =>
    (c :: (extendGroup maxOutputSize c.length rest).1)
      :: groupChunks maxOutputSize (extendGroup maxOutputSize c.length rest).2
termination_by l => l.length
decreasing_by
  have key : ∀ (acc : ℕ) (l : List (List ℕ)),
      (extendGroup maxOutputSize acc l).2.length ≤ l.length := by
    intro acc l
    induction l generalizing acc with
    | nil => simp [extendGroup]
    | cons c0 r0 ih =>
      rw [extendGroup]
      split
      · simp
      · simpa using Nat.le_succ_of_le (ih (acc + c0.length))
  exact Nat.lt_succ_of_le (key c.length rest)

/-- `dump(maxOutputSize, removeInitialZeros)` from the polyfill worker:
concatenate each group into one output frame; if no frame was produced and
the stream is still in its all-zero prefix under `removeInitialZeros`, push
one empty frame; clear `buffers` (leaving `initialZeros` untouched).
Returns the ordered frames and the updated worker state. -/
def dump (e : Encoder) (maxOutputSize : ℕ) (removeInitialZeros : Bool) :
    List (List ℕ) × Encoder :=
  let outputBuffers := (groupChunks maxOutputSize e.buffers).map List.flatten
  (if outputBuffers.isEmpty && removeInitialZeros && e.initialZeros then [[]]
   else outputBuffers,
   { e with buffers := [] })

/-! ## The `RecordTranscribe` session state machine -/

/-- The `State` enumeration of `web_voice.js`. -/
inductive State where
  | Init
  | RequestingMedia
  | OpeningWebSocket
  | Running
  | FinishingRecording
  | FinishingProcessing
  | FinishingEarly
  | Finished
  | Error
  | Canceled
deriving DecidableEq, BEq

/-- `isInactiveState(state)` from `web_voice.js`. -/
def isInactiveState (state : State) : Bool :=
  state == .Init || state == .Finished || state == .Error || state == .Canceled

/-- `isWebSocketState(state)` from `web_voice.js`. -/
def isWebSocketState (state : State) : Bool :=
  state == .OpeningWebSocket || state == .Running ||
    state == .FinishingRecording || state == .FinishingProcessing

/-- An encoded audio frame (the bytes of one `data` event / WebSocket
binary message). -/
abbrev Frame := List ℕ

/-- The session-visible fields of a `RecordTranscribe` instance.  The
configuration setters copy their argument into the corresponding field;
`speechContext` is free-form and never inspected, so it is carried as a
`JsonV`.  The four `cb…` flags record whether the corresponding callback
was registered (`_onStarted`, `_onPartialResult`, `_onFinished`, `_onError`
non-null).  The raw WebSocket / MediaRecorder / MediaStream handles are
external resources whose teardown has no session-visible state beyond what
is modelled here. -/
structure Session where
  state : State
  apiKey : Option String
  includeNonFinal : Bool
  enableEndpointDetection : Bool
  speechContext : JsonV
  enableStreamingSpeakerDiarization : Bool
  enableGlobalSpeakerDiarization : Bool
  minNumSpeakers : ℤ
  maxNumSpeakers : ℤ
  enableSpeakerIdentification : Bool
  candSpeakerNames : List String
  enableProfanityFilter : Bool
  contentModerationPhrases : List String
  model : String
  enableDictation : Bool
  cbStarted : Bool
  cbResult : Bool
  cbFinished : Bool
  cbError : Bool
  result : Result
  queuedMessages : Option (List Frame)

/-- The process-wide picture: the module-level `recordTranscribeActive`
flag plus the session under consideration. -/
structure World where
  active : Bool
  sess : Session

/-- The externally observable effects a handler performs, in order. -/
inductive Emit where
  | requestUserMedia
  | sendRequest (request : List (String × JsonV))
  | sendFrame (f : Frame)
  | sendEmptyMessage
  | startedCb
  | resultCb (r : Result)
  | finishedCb
  | errorCb (status message : String)
  | logError (msg : String)

/-- `_closeResources()`: closes the WebSocket and the media pipeline
(external handles) and nulls `_queuedMessages`. -/
def closeResources (s : Session) : Session :=
  { s with queuedMessages := none }

/-- `_handleError(status, message)` from `web_voice.js`. -/
def handleError (w : World) (status message : String) : World × List Emit :=
  ({ active := false, sess := { closeResources w.sess with state := .Error } },
   if w.sess.cbError then [.errorCb status message] else [])

/-- `_handleFinished()` from `web_voice.js`. -/
def handleFinished (w : World) : World × List Emit :=
  ({ active := false, sess := { closeResources w.sess with state := .Finished } },
   if w.sess.cbFinished then [.finishedCb] else [])

/-- `start()` from `web_voice.js`.  The third component is `some errMsg`
when the JS method throws; all three throws precede `getUserMedia`, the
flag assignment and the state assignment, so along the throwing paths the
world is returned exactly as it was. -/
def start (w : World) : World × List Emit × Option String :=
  if w.sess.state ≠ .Init then
    (w, [], some "start() may only be called once")
  else if w.active then
    (w, [], some "only one RecordTranscribe may be active at a time")
  else if w.sess.apiKey = none then
    (w, [], some "API key not set, call setApiKey first")
  else
    ({ active := true, sess := { w.sess with state := .RequestingMedia } },
     [.requestUserMedia], none)

/-- `_onMediaRecorderData(event)` from `web_voice.js`.  `_queuedMessages`
is non-null whenever the state is `OpeningWebSocket` (it is initialised
together with that state in `_onGetUserMediaSuccess` and nulled only
together with a state change); `getD []` renders the unreachable null
case. -/
def onMediaRecorderData (w : World) (data : Frame) : World × List Emit :=
  if w.sess.state = .OpeningWebSocket then
    if (w.sess.queuedMessages.getD []).length < 100 then
      ({ w with sess :=
          { w.sess with
            queuedMessages := some (w.sess.queuedMessages.getD [] ++ [data]) } },
       [])
    else
      (w, [.logError "max queuedMessages size exceeded"])
  else if w.sess.state = .Running ∨ w.sess.state = .FinishingRecording then
    (w, [.sendFrame data])
  else
    (w, [])

/-- JS `Math.round` (round half toward +∞); exact on the rational model. -/
def jsRound (q : ℚ) : ℤ := ⌊q + 1 / 2⌋

/-- The `request` object assembled by `_onWebSocketOpen`, as the
insertion-ordered field list that `JSON.stringify` serialises.
`sampleRate` is `this._mediaRecorder.getSampleRate()`. -/
def buildRequest (s : Session) (sampleRate : ℚ) : List (String × JsonV) :=
  [("api_key", match s.apiKey with | some k => .jstr k | none => .jnull),
   ("sample_rate_hertz", .jnum (jsRound sampleRate)),
   ("include_nonfinal", .jbool s.includeNonFinal),
   ("speech_context", s.speechContext)]
  ++ (if s.enableEndpointDetection then
        [("enable_endpoint_detection", JsonV.jbool true)] else [])
  ++ (if s.enableStreamingSpeakerDiarization then
        [("enable_streaming_speaker_diarization", JsonV.jbool true)] else [])
  ++ (if s.enableGlobalSpeakerDiarization then
        [("enable_global_speaker_diarization", JsonV.jbool true)] else [])
  ++ (if s.minNumSpeakers ≠ 0 then
        [("min_num_speakers", JsonV.jnum s.minNumSpeakers)] else [])
  ++ (if s.maxNumSpeakers ≠ 0 then
        [("max_num_speakers", JsonV.jnum s.maxNumSpeakers)] else [])
  ++ (if s.enableSpeakerIdentification then
        [("enable_speaker_identification", JsonV.jbool true),
         ("cand_speaker_names", JsonV.jarr (s.candSpeakerNames.map .jstr))]
      else [])
  ++ (if s.enableProfanityFilter then
        [("enable_profanity_filter", JsonV.jbool true)] else [])
  ++ (if s.contentModerationPhrases ≠ [] then
        [("content_moderation_phrases",
          JsonV.jarr (s.contentModerationPhrases.map .jstr))] else [])
  ++ (if s.enableDictation then
        [("enable_dictation", JsonV.jbool true)] else [])
  ++ (if s.model ≠ "" then [("model", JsonV.jstr s.model)] else [])

/-- `_onWebSocketOpen(event)` from `web_voice.js`: guarded on
`OpeningWebSocket`; sends the handshake request, then each queued message
in order, nulls the queue, moves to `Running`, and invokes `_onStarted`
when registered. -/
def onWebSocketOpen (w : World) (sampleRate : ℚ) : World × List Emit :=
  if w.sess.state ≠ .OpeningWebSocket then (w, [])
  else
    ({ w with sess := { w.sess with queuedMessages := none, state := .Running } },
     .sendRequest (buildRequest w.sess sampleRate)
       :: (w.sess.queuedMessages.getD []).map .sendFrame
       ++ (if w.sess.cbStarted then [.startedCb] else []))

/-- The ASCII character class `[a-zA-Z0-9_\-]` of `StatusMessageRegex`. -/
def isTagChar (c : Char) : Bool :=
  ('a' ≤ c && c ≤ 'z') || ('A' ≤ c && c ≤ 'Z') || ('0' ≤ c && c ≤ '9') ||
    c == '_' || c == '-'

/-- The JS line terminators, which `.` (without the `s` flag) does not
match. -/
def isLineTerminator (c : Char) : Bool :=
  c == '\n' || c == '\r' || c == Char.ofNat 0x2028 || c == Char.ofNat 0x2029

/-- `StatusMessageRegex.exec(reason)` for
`new RegExp("^<([a-zA-Z0-9_\\-]+)> *(([^ ]|$).*)$")`, returning
`(match[1], match[2])`.  The regex matches exactly when the string is `<`,
a nonempty run of tag characters (maximal, since `>` is not a tag
character), `>`, a maximal run of spaces (maximal because group 2 must
start with `[^ ]` or be empty), and a message whose characters after the
first contain no line terminator (the first one may be a line terminator,
via `[^ ]`; the rest are matched by `.`, and the `m`-flag-free `$` anchors
at end of input). -/
def statusMessageExec (reason : String) : Option (String × String) :=
  match reason.toList with
  | '<' :: rest =>
    let tag := rest.takeWhile isTagChar
    if tag.isEmpty then none
    else
      match rest.dropWhile isTagChar with
      | '>' :: rest2 =>
        let msg := rest2.dropWhile (fun c => c == ' ')
        if (msg.drop 1).any isLineTerminator then none
        else some (String.mk tag, String.mk msg)
      | _ => none
  | _ => none

/-- `_onWebSocketClose(event)` from `web_voice.js`. -/
def onWebSocketClose (w : World) (code : ℤ) (reason : String) : World × List Emit :=
  if !isWebSocketState w.sess.state then (w, [])
  else if code = 1000 then
    match statusMessageExec reason with
    | some (status, message) =>
      if status = "eof" then
        if w.sess.state = .FinishingProcessing then handleFinished w
        else handleError w "other_asr_error" "Unexpected EOF received."
      else handleError w status message
    | none => handleError w "other_asr_error" reason
  else
    handleError w "websocket_closed"
      ("WebSocket closed: code=" ++ toString code ++ ", reason=" ++ reason)

/-- `_onWebSocketError(event)` from `web_voice.js`. -/
def onWebSocketError (w : World) : World × List Emit :=
  if !isWebSocketState w.sess.state then (w, [])
  else handleError w "websocket_error" "WebSocket error occurred."

/-- `_onWebSocketMessage(event)` from `web_voice.js`.  `data = none`
models an `event.data` string that `JSON.parse` rejects.  The returned
`Bool` is `true` when the JS handler raises; both raising expressions
(`JSON.parse` and `resultFromResponse`) run before the `_updateResult`
mutation and the callback, so along those paths the world is returned
exactly as it was, with no emits. -/
def onWebSocketMessage (w : World) (data : Option JsonV) :
    World × List Emit × Bool :=
  if w.sess.state ≠ .Running ∧ w.sess.state ≠ .FinishingRecording ∧
      w.sess.state ≠ .FinishingProcessing then
    (w, [], false)
  else
    match data with
    | none => (w, [], true)
    | some response =>
      match resultFromResponse response with
      | .error _ => (w, [], true)
      | .ok result =>
        ({ w with sess :=
            { w.sess with result := updateResult w.sess.result result } },
         if w.sess.cbResult then [.resultCb result] else [],
         false)

/-- The session fields as set by the `RecordTranscribe` constructor:
state `Init`, no API key, every option at its default, no callbacks
registered, empty initial result, null queue. -/
def newRecordTranscribe : Session :=
  { state := .Init
    apiKey := none
    includeNonFinal := false
    enableEndpointDetection := false
    speechContext := .jobj []
    enableStreamingSpeakerDiarization := false
    enableGlobalSpeakerDiarization := false
    minNumSpeakers := 0
    maxNumSpeakers := 0
    enableSpeakerIdentification := false
    candSpeakerNames := []
    enableProfanityFilter := false
    contentModerationPhrases := []
    model := ""
    enableDictation := false
    cbStarted := false
    cbResult := false
    cbFinished := false
    cbError := false
    result := initialResult
    queuedMessages := none }

/-- Feeding a sequence of recorder `data` events to the session, in
order, keeping the resulting world. -/
def processFrames (w : World) (fs : List Frame) : World :=
  fs.foldl (fun w f => (onMediaRecorderData w f).1) w

/-- Modelled from the spec: the claimed per-sample conversion
`clamp(round(sample*32768), -32768, 32767)` — stated with *round* where the
code uses `Math.floor` — kept for comparison against `sampleInt16`
(JS `Math.round` rounds half toward +∞, as Mathlib's `round` does on ℚ). -/
def sampleInt16SpecRound (x : ℚ) : ℤ :=
  max (-32768) (min 32767 (round (x * 32768)))

/-! ## Helper lemmas about the encoder -/

theorem extendGroup_append (maxOutputSize : ℕ) :
    ∀ (acc : ℕ) (l : List (List ℕ)),
      (extendGroup maxOutputSize acc l).1 ++ (extendGroup maxOutputSize acc l).2 = l
  | _, [] => rfl
  | acc, c :: rest => by
    unfold extendGroup
    split
    · rfl
    · simpa using extendGroup_append maxOutputSize (acc + c.length) rest

theorem extendGroup_snd_length_le (maxOutputSize acc : ℕ) (l : List (List ℕ)) :
    (extendGroup maxOutputSize acc l).2.length ≤ l.length := by
  conv_rhs => rw [← extendGroup_append maxOutputSize acc l]
  rw [List.length_append]
  omega

theorem sampleInt16_zero : sampleInt16 0 = 0 := by
  have h : ⌊(0 : ℚ) * 32768⌋ = 0 := by norm_num
  rw [sampleInt16, h]; decide

theorem sampleInt16_half : sampleInt16 ((1 : ℚ) / 2) = 16384 := by
  have h : ⌊((1 : ℚ) / 2) * 32768⌋ = 16384 := by norm_num
  rw [sampleInt16, h]; decide

theorem sampleInt16_one : sampleInt16 1 = 32767 := by
  have h : ⌊(1 : ℚ) * 32768⌋ = 32768 := by norm_num
  rw [sampleInt16, h]; decide

theorem sampleInt16_neg_one : sampleInt16 (-1) = -32768 := by
  have h : ⌊(-1 : ℚ) * 32768⌋ = -32768 := by norm_num
  rw [sampleInt16, h]; decide

theorem sampleInt16_inv65536 : sampleInt16 ((65536 : ℚ)⁻¹) = 0 := by
  have h : ⌊((65536 : ℚ)⁻¹) * 32768⌋ = 0 := by norm_num
  rw [sampleInt16, h]; decide

theorem sampleInt16_lower (x : ℚ) : -32768 ≤ sampleInt16 x :=
  le_max_left _ _

theorem sampleInt16_upper (x : ℚ) : sampleInt16 x ≤ 32767 :=
  max_le (by norm_num) (min_le_left _ _)

theorem groupChunks_flatten (m : ℕ) :
    ∀ l : List (List ℕ), (groupChunks m l).flatten = l
  | [] => by simp [groupChunks]
  | c :: rest => by
    rw [groupChunks]
    have ih := groupChunks_flatten m (extendGroup m c.length rest).2
    simp only [List.flatten_cons, ih, List.cons_append, List.cons.injEq, true_and]
    exact extendGroup_append m c.length rest
termination_by l => l.length
decreasing_by
  exact Nat.lt_succ_of_le (extendGroup_snd_length_le m c.length rest)

theorem groupChunks_mem_ne_nil (m : ℕ) :
    ∀ l : List (List ℕ), ∀ g ∈ groupChunks m l, g ≠ []
  | [] => by simp [groupChunks]
  | c :: rest => by
    rw [groupChunks]
    intro g hg
    rcases List.mem_cons.mp hg with h | h
    · simp [h]
    · exact groupChunks_mem_ne_nil m (extendGroup m c.length rest).2 g h
termination_by l => l.length
decreasing_by
  exact Nat.lt_succ_of_le (extendGroup_snd_length_le m c.length rest)

theorem extendGroup_fst_total_le (m : ℕ) :
    ∀ (acc : ℕ) (l : List (List ℕ)), (extendGroup m acc l).1 ≠ [] →
      acc + (extendGroup m acc l).1.flatten.length ≤ m := by
  intro acc l
  induction l generalizing acc with
  | nil => intro h; exact absurd rfl h
  | cons c rest ih =>
    intro h
    rw [extendGroup] at h ⊢
    by_cases hbr : acc + c.length > m
    · simp [hbr] at h
    · simp only [hbr, if_false, List.flatten_cons, List.length_append]
      by_cases hnil : (extendGroup m (acc + c.length) rest).1 = []
      · simp [hnil]; omega
      · have := ih (acc + c.length) hnil
        omega

theorem extendGroup_all (m : ℕ) :
    ∀ (acc : ℕ) (l : List (List ℕ)), acc + l.flatten.length ≤ m →
      extendGroup m acc l = (l, []) := by
  intro acc l
  induction l generalizing acc with
  | nil => intro _; rfl
  | cons c rest ih =>
    intro h
    simp only [List.flatten_cons, List.length_append] at h
    rw [extendGroup, if_neg (by omega)]
    rw [ih (acc + c.length) (by omega)]

theorem groupChunks_oversize_singleton (m : ℕ) :
    ∀ l : List (List ℕ), ∀ g ∈ groupChunks m l, m < g.flatten.length → g.length = 1
  | [] => by simp [groupChunks]
  | c :: rest => by
    intro g hg hover
    rw [groupChunks] at hg
    rcases List.mem_cons.mp hg with h | h
    · subst h
      by_cases hnil : (extendGroup m c.length rest).1 = []
      · simp [hnil]
      · exfalso
        have := extendGroup_fst_total_le m c.length rest hnil
        simp only [List.flatten_cons, List.length_append] at hover
        omega
    · exact groupChunks_oversize_singleton m (extendGroup m c.length rest).2 g h hover
termination_by l => l.length
decreasing_by
  exact Nat.lt_succ_of_le (extendGroup_snd_length_le m c.length rest)

theorem flatten_map_flatten (l : List (List (List ℕ))) :
    (l.map List.flatten).flatten = l.flatten.flatten := by
  induction l with
  | nil => rfl
  | cons g gs ih => simp [ih]

/-! ## Claims C2, C3, C4, C9: the encoder -/

/-- C2 (the code is at odds with the claim and with the polyfill's own doc
comment): on a fresh stream with `removeLeadingSilence` set, fed the block
`[0, 1]` (one leading zero sample, then a nonzero one), `encode` buffers
the *untruncated* chunk `[0, 0, 255, 127]` — the two leading zero bytes are
retained, because `buffer = buffer.slice(i)` reassigns a dead local while
the unsliced `array` is pushed — and clears the all-zero flag; the claim
prescribes the truncated chunk `[255, 127]`.  (The all-zero-discard case,
block `[0, 0]`, does behave as claimed.) -/
theorem c2_leading_silence_not_truncated :
    (encode Encoder.start [0, 1] true).buffers = [[0, 0, 255, 127]]
    ∧ (encode Encoder.start [0, 1] true).initialZeros = false
    ∧ ([[0, 0, 255, 127]] : List (List ℕ)) ≠ [[255, 127]]
    ∧ (encode Encoder.start [0, 0] true).buffers = []
    ∧ (encode Encoder.start [0, 0] true).initialZeros = true := by
  refine ⟨?_, ?_, by decide, ?_, ?_⟩ <;>
    simp [encode, Encoder.start, encodeBlock, sampleBytes,
      sampleInt16_zero, sampleInt16_one, List.takeWhile]

/-- C3 counterexample: the claim prescribes the conversion
`clamp(round(x*32768), -32768, 32767)`; at the sample `1/65536` the code's
`Math.floor`-based conversion stores 0 (bytes `00 00`) while the claimed
`round`-based conversion gives 1 (bytes `01 00`), so the appended bytes are
not the ones the claim prescribes. -/
theorem c3_round_counterexample :
    (encode Encoder.start [((65536 : ℚ)⁻¹)] false).buffers = [[0, 0]]
    ∧ sampleInt16SpecRound ((65536 : ℚ)⁻¹) = 1
    ∧ [(sampleInt16SpecRound ((65536 : ℚ)⁻¹) % 65536).toNat % 256,
       (sampleInt16SpecRound ((65536 : ℚ)⁻¹) % 65536).toNat / 256] ≠ [0, 0] := by
  have hr : sampleInt16SpecRound ((65536 : ℚ)⁻¹) = 1 := by
    have h : round (((65536 : ℚ)⁻¹) * 32768) = 1 := by
      rw [round_eq]; norm_num
    rw [sampleInt16SpecRound, h]; decide
  refine ⟨?_, hr, ?_⟩
  · simp [encode, Encoder.start, encodeBlock, sampleBytes, sampleInt16_inv65536]
  · rw [hr]; decide

/-- C3 (amended: the per-sample conversion uses `Math.floor`, not `round`,
and the chunk is appended on the path where leading-silence removal is not
requested): `encode` maps each sample `x` to
`clamp(floor(x*32768), -32768, 32767)`, stores it as two little-endian
bytes — valid bytes that decode back to the clamped value modulo 2^16 —
per sample in order, and appends the chunk; amplitude 1 encodes to 32767
and amplitude −1 to −32768. -/
theorem c3_floor_clamp_le (e : Encoder) (buffer : List ℚ) :
    (encode e buffer false).buffers = e.buffers ++ [(buffer.map sampleBytes).flatten]
    ∧ (encode e buffer false).initialZeros = e.initialZeros
    ∧ (∀ x : ℚ,
        (sampleBytes x).length = 2
        ∧ (∀ y ∈ sampleBytes x, y < 256)
        ∧ ((sampleBytes x).headI + 256 * (sampleBytes x).getLastI : ℤ)
            = sampleInt16 x % 65536
        ∧ -32768 ≤ sampleInt16 x ∧ sampleInt16 x ≤ 32767)
    ∧ sampleInt16 1 = 32767 ∧ sampleInt16 (-1) = -32768 := by
  refine ⟨by simp [encode, encodeBlock], by simp [encode], ?_,
    sampleInt16_one, sampleInt16_neg_one⟩
  intro x
  have h0 : (0 : ℤ) ≤ sampleInt16 x % 65536 := Int.emod_nonneg _ (by norm_num)
  have h1 : sampleInt16 x % 65536 < 65536 := Int.emod_lt_of_pos _ (by norm_num)
  refine ⟨rfl, ?_, ?_, sampleInt16_lower x, sampleInt16_upper x⟩
  · intro y hy
    rcases List.mem_cons.mp hy with h | h
    · subst h; exact Nat.lt_of_lt_of_le (Nat.mod_lt _ (by norm_num)) (by norm_num)
    · rcases List.mem_cons.mp h with h | h
      · subst h
        have : (sampleInt16 x % 65536).toNat < 65536 := by omega
        omega
      · simp at h
  · simp only [sampleBytes, List.headI, List.getLastI]
    have hmd : (sampleInt16 x % 65536).toNat % 256
        + 256 * ((sampleInt16 x % 65536).toNat / 256)
        = (sampleInt16 x % 65536).toNat := by
      omega
    omega

/-- C4 counterexample: on an empty chunk list (with the heartbeat
condition off) and `maxOutputSize = 0` — which is at least the total
buffered length 0 — `dump` outputs zero frames, not a single frame, so the
claim as universally stated over every buffered chunk list fails. -/
theorem c4_empty_buffer_counterexample :
    (Encoder.buffers ⟨[], false⟩).flatten.length ≤ 0
    ∧ (dump ⟨[], false⟩ 0 false).1 = []
    ∧ (dump ⟨[], false⟩ 0 false).1.length ≠ 1 := by
  refine ⟨by simp, ?_, ?_⟩ <;> simp [dump, groupChunks]

/-- C4 (amended: restricted to a nonempty buffered chunk list; on an empty
buffer the grouped output is empty and `dump` yields no frame — or only
the heartbeat frame of C9): `dump` partitions the chunks into consecutive
nonempty groups in order, outputs one frame per group equal to that
group's concatenation, clears the buffer, preserves the byte stream, never
splits a chunk (an oversize frame is exactly one buffered chunk), and
yields a single frame when `maxOutputSize` covers the whole buffer. -/
theorem c4_dump_partitions (e : Encoder) (maxOutputSize : ℕ)
    (removeInitialZeros : Bool) (hne : e.buffers ≠ []) :
    ((dump e maxOutputSize removeInitialZeros).1
        = (groupChunks maxOutputSize e.buffers).map List.flatten)
    ∧ (groupChunks maxOutputSize e.buffers).flatten = e.buffers
    ∧ (∀ g ∈ groupChunks maxOutputSize e.buffers, g ≠ [])
    ∧ (dump e maxOutputSize removeInitialZeros).1.flatten = e.buffers.flatten
    ∧ (∀ f ∈ (dump e maxOutputSize removeInitialZeros).1,
        maxOutputSize < f.length → ∃ c ∈ e.buffers, f = c)
    ∧ (dump e maxOutputSize removeInitialZeros).2.buffers = []
    ∧ (e.buffers.flatten.length ≤ maxOutputSize →
        (dump e maxOutputSize removeInitialZeros).1.length = 1) := by
  obtain ⟨c, rest, hcr⟩ := List.exists_cons_of_ne_nil hne
  have hframes : (dump e maxOutputSize removeInitialZeros).1
      = (groupChunks maxOutputSize e.buffers).map List.flatten := by
    rw [dump, hcr, groupChunks]
    simp
  refine ⟨hframes, groupChunks_flatten maxOutputSize e.buffers,
    groupChunks_mem_ne_nil maxOutputSize e.buffers, ?_, ?_, by simp [dump], ?_⟩
  · rw [hframes, flatten_map_flatten, groupChunks_flatten]
  · intro f hf hover
    rw [hframes] at hf
    obtain ⟨g, hg, hfg⟩ := List.mem_map.mp hf
    subst hfg
    have hsing := groupChunks_oversize_singleton maxOutputSize e.buffers g hg hover
    obtain ⟨c0, hc0⟩ := List.length_eq_one.mp hsing
    subst hc0
    refine ⟨c0, ?_, by simp⟩
    have : c0 ∈ (groupChunks maxOutputSize e.buffers).flatten :=
      List.mem_flatten.mpr ⟨[c0], hg, by simp⟩
    rwa [groupChunks_flatten] at this
  · intro hle
    rw [hframes, hcr, groupChunks,
      extendGroup_all maxOutputSize c.length rest
        (by rw [hcr] at hle; simpa using hle)]
    simp [groupChunks]

/-- C4 witness: a concrete nonempty buffer, `maxOutputSize = 2`. -/
theorem c4_dump_partitions_witness :
    (dump ⟨[[1, 2], [3]], false⟩ 2 false).1.flatten = [1, 2, 3]
    ∧ (dump ⟨[[1, 2], [3]], false⟩ 2 false).2.buffers = [] := by
  have h := c4_dump_partitions ⟨[[1, 2], [3]], false⟩ 2 false (by decide)
  exact ⟨by rw [h.2.2.2.1]; decide, h.2.2.2.2.2.1⟩

/-- C9: with an empty buffered chunk list `dump` returns exactly one
empty heartbeat frame when `removeLeadingSilence` is set and the all-zero
flag still holds, and no frame in every other empty-buffer case; the
grouped output is empty only when the buffer is (a nonempty buffer always
produces a frame). -/
theorem c9_dump_heartbeat (e : Encoder) (maxOutputSize : ℕ)
    (removeInitialZeros : Bool) :
    (e.buffers = [] →
      (dump e maxOutputSize removeInitialZeros).1
        = if removeInitialZeros && e.initialZeros then [[]] else [])
    ∧ (e.buffers ≠ [] →
        (dump e maxOutputSize removeInitialZeros).1 ≠ []) := by
  constructor
  · intro h
    rw [dump, h]
    simp [groupChunks]
  · intro h
    obtain ⟨c, rest, hcr⟩ := List.exists_cons_of_ne_nil h
    rw [dump, hcr, groupChunks]
    simp

/-- C9 witness: the heartbeat case and one no-frame case, concretely. -/
theorem c9_dump_heartbeat_witness :
    (dump ⟨[], true⟩ 60000 true).1 = [[]]
    ∧ (dump ⟨[], false⟩ 60000 true).1 = []
    ∧ (dump ⟨[], true⟩ 60000 false).1 = [] := by
  have h1 := (c9_dump_heartbeat ⟨[], true⟩ 60000 true).1 rfl
  have h2 := (c9_dump_heartbeat ⟨[], false⟩ 60000 true).1 rfl
  have h3 := (c9_dump_heartbeat ⟨[], true⟩ 60000 false).1 rfl
  exact ⟨by simpa using h1, by simpa using h2, by simpa using h3⟩

/-! ## Helper lemmas about the result accumulator -/

theorem mem_dropWhile_of_neg {α : Type} (p : α → Bool) (l : List α) (a : α)
    (hal : a ∈ l) (hpa : p a = false) : a ∈ l.dropWhile p := by
  induction l with
  | nil => simp at hal
  | cons b t ih =>
    rw [List.dropWhile_cons]
    by_cases hpb : p b = true
    · rw [if_pos hpb]
      rcases List.mem_cons.mp hal with h | h
      · subst h; rw [hpa] at hpb; cases hpb
      · exact ih h
    · rw [if_neg hpb]; exact hal

theorem dropTrailingNonFinal_append (ws : List Word) :
    dropTrailingNonFinal ws
      ++ (ws.reverse.takeWhile (fun w => !w.is_final)).reverse = ws := by
  rw [dropTrailingNonFinal, ← List.reverse_append,
    List.takeWhile_append_dropWhile, List.reverse_reverse]

theorem mem_dropTrailingNonFinal (w : Word) (ws : List Word)
    (hw : w ∈ ws) (hf : w.is_final = true) : w ∈ dropTrailingNonFinal ws := by
  rw [dropTrailingNonFinal, List.mem_reverse]
  exact mem_dropWhile_of_neg _ _ _ (List.mem_reverse.mpr hw) (by simp [hf])

theorem mem_updateResult_of_final (cur inc : Result) (w : Word)
    (hw : w ∈ cur.words) (hf : w.is_final = true) :
    w ∈ (updateResult cur inc).words :=
  List.mem_append_left _ (mem_dropTrailingNonFinal w cur.words hw hf)

theorem mem_foldl_updateResult (w : Word) (hf : w.is_final = true) :
    ∀ (incs : List Result) (cur : Result), w ∈ cur.words →
      w ∈ (incs.foldl updateResult cur).words
  | [], _, h => h
  | inc :: incs, cur, h =>
    mem_foldl_updateResult w hf incs (updateResult cur inc)
      (mem_updateResult_of_final cur inc w h hf)

theorem resultFromResponse_words (response : JsonV) (fwL nfwL : List JsonV)
    (inc : Result)
    (hfw : jGet response "fw" = some (.jarr fwL))
    (hnfw : jGet response "nfw" = some (.jarr nfwL))
    (hok : resultFromResponse response = Except.ok inc) :
    inc.words = fwL.map (fun j => wordFromJson j true)
      ++ nfwL.map (fun j => wordFromJson j false) := by
  rcases ho : (if jHas response "spks" then
      (asArr (jGet response "spks")).map speakersFromSpks
    else some []) with _ | speakers
  · rw [resultFromResponse, hfw, hnfw, ho] at hok
    simp [asArr] at hok
  · rw [resultFromResponse, hfw, hnfw, ho] at hok
    simp only [asArr] at hok
    cases hok
    rfl

theorem resultFromResponse_error_of_bad_arrays (j : JsonV)
    (h : asArr (jGet j "fw") = none ∨ asArr (jGet j "nfw") = none) :
    resultFromResponse j = Except.error () := by
  rcases h with h | h
  · rw [resultFromResponse, h]
  · cases hfw : asArr (jGet j "fw") with
    | none => rw [resultFromResponse, hfw]
    | some fw => rw [resultFromResponse, hfw, h]

/-! ## Claims C5 and C10: the result accumulator and inbound messages -/

/-- C5: merging an incoming response into the current result removes
exactly the trailing non-final words (never a final one), appends the
response's final words in order followed by its non-final words in order,
and replaces `final_proc_time_ms`, `total_proc_time_ms` and the speaker
mapping wholesale; consequently a final word survives every later merge in
any sequence of merges. -/
theorem c5_merge (cur : Result) (response : JsonV) (inc : Result)
    (fwL nfwL : List JsonV)
    (hfw : jGet response "fw" = some (.jarr fwL))
    (hnfw : jGet response "nfw" = some (.jarr nfwL))
    (hok : resultFromResponse response = Except.ok inc) :
    (updateResult cur inc).words
      = dropTrailingNonFinal cur.words
        ++ fwL.map (fun j => wordFromJson j true)
        ++ nfwL.map (fun j => wordFromJson j false)
    ∧ (∃ dropped, cur.words = dropTrailingNonFinal cur.words ++ dropped
        ∧ ∀ w ∈ dropped, w.is_final = false)
    ∧ (∀ w ∈ cur.words, w.is_final = true → w ∈ (updateResult cur inc).words)
    ∧ (updateResult cur inc).final_proc_time_ms = inc.final_proc_time_ms
    ∧ (updateResult cur inc).total_proc_time_ms = inc.total_proc_time_ms
    ∧ (updateResult cur inc).speakers = inc.speakers
    ∧ (∀ incs : List Result, ∀ w ∈ cur.words, w.is_final = true →
        w ∈ (incs.foldl updateResult (updateResult cur inc)).words) := by
  refine ⟨?_, ?_, ?_, rfl, rfl, rfl, ?_⟩
  · rw [updateResult, resultFromResponse_words response fwL nfwL inc hfw hnfw hok,
      List.append_assoc]
  · refine ⟨(cur.words.reverse.takeWhile (fun w => !w.is_final)).reverse,
      (dropTrailingNonFinal_append cur.words).symm, ?_⟩
    intro w hw
    have := List.mem_takeWhile_imp (List.mem_reverse.mp hw)
    simpa using this
  · intro w hw hf
    exact mem_updateResult_of_final cur inc w hw hf
  · intro incs w hw hf
    exact mem_foldl_updateResult w hf incs (updateResult cur inc)
      (mem_updateResult_of_final cur inc w hw hf)

/-- C5 witness: merging a one-final-word response into a result holding a
final word followed by a non-final word drops the non-final tail and keeps
the final words. -/
theorem c5_merge_witness :
    (updateResult
        ⟨[⟨some (.jstr "a"), none, none, none, true⟩,
          ⟨some (.jstr "b"), none, none, none, false⟩], none, none, []⟩
        ⟨[⟨some (.jstr "x"), none, none, none, true⟩], none, none, []⟩).words
      = [⟨some (.jstr "a"), none, none, none, true⟩,
         ⟨some (.jstr "x"), none, none, none, true⟩] := by
  have h := c5_merge
      ⟨[⟨some (.jstr "a"), none, none, none, true⟩,
        ⟨some (.jstr "b"), none, none, none, false⟩], none, none, []⟩
      (.jobj [("fw", .jarr [.jobj [("t", .jstr "x")]]), ("nfw", .jarr [])])
      ⟨[⟨some (.jstr "x"), none, none, none, true⟩], none, none, []⟩
      [.jobj [("t", .jstr "x")]] [] rfl rfl rfl
  rw [h.1]
  simp [dropTrailingNonFinal, wordFromJson, jGet]

/-- C10: an inbound transport message whose payload is not a well-formed
response (unparseable JSON, or `fw`/`nfw` missing or not arrays) makes the
handler raise before mutating anything while the session is in `Running`,
`FinishingRecording` or `FinishingProcessing`: the world (state tag,
result, global active flag) is returned unchanged and no callback — error
or partial-result — is emitted. -/
theorem c10_malformed_message_raises (w : World) (data : Option JsonV)
    (hst : w.sess.state = .Running ∨ w.sess.state = .FinishingRecording ∨
      w.sess.state = .FinishingProcessing)
    (hmal : data = none ∨ ∃ j, data = some j ∧
      (asArr (jGet j "fw") = none ∨ asArr (jGet j "nfw") = none)) :
    onWebSocketMessage w data = (w, [], true) := by
  have hcond : ¬(w.sess.state ≠ .Running ∧ w.sess.state ≠ .FinishingRecording ∧
      w.sess.state ≠ .FinishingProcessing) := by
    rcases hst with h | h | h <;> simp [h]
  rcases hmal with h | ⟨j, hj, hbad⟩
  · subst h
    rw [onWebSocketMessage, if_neg hcond]
  · subst hj
    rw [onWebSocketMessage, if_neg hcond,
      resultFromResponse_error_of_bad_arrays j hbad]

/-- C10 witness: a running session receiving `{}` (no `fw`/`nfw`). -/
theorem c10_malformed_message_raises_witness :
    onWebSocketMessage
        ⟨true, ⟨.Running, some "k", false, false, .jnull, false, false, 0, 0,
          false, [], false, [], "", false, false, false, false, false,
          ⟨[], none, none, []⟩, none⟩⟩
        (some (.jobj []))
      = (⟨true, ⟨.Running, some "k", false, false, .jnull, false, false, 0, 0,
          false, [], false, [], "", false, false, false, false, false,
          ⟨[], none, none, []⟩, none⟩⟩, [], true) :=
  c10_malformed_message_raises _ _ (Or.inl rfl) (Or.inr ⟨_, rfl, Or.inl rfl⟩)

/-! ## Helper lemmas about the session state machine -/

theorem onMediaRecorderData_preserves (w : World) (f : Frame) :
    (onMediaRecorderData w f).1.sess.state = w.sess.state
    ∧ (onMediaRecorderData w f).1.active = w.active := by
  rw [onMediaRecorderData]
  split
  · split
    · exact ⟨rfl, rfl⟩
    · exact ⟨rfl, rfl⟩
  · split
    · exact ⟨rfl, rfl⟩
    · exact ⟨rfl, rfl⟩

theorem onMediaRecorderData_opening_queue (w : World) (f : Frame)
    (q : List Frame) (hst : w.sess.state = .OpeningWebSocket)
    (hq : w.sess.queuedMessages = some q) :
    (onMediaRecorderData w f).1.sess.queuedMessages
      = some (if q.length < 100 then q ++ [f] else q) := by
  rw [onMediaRecorderData, if_pos hst]
  by_cases hlen : q.length < 100
  · rw [if_pos (by rw [hq]; simpa using hlen), if_pos hlen]
    simp [hq]
  · rw [if_neg (by rw [hq]; simpa using hlen), if_neg hlen]
    exact hq

theorem processFrames_opening (fs : List Frame) :
    ∀ (w : World) (q : List Frame), w.sess.state = .OpeningWebSocket →
      w.sess.queuedMessages = some q →
      (processFrames w fs).sess.queuedMessages
          = some (q ++ fs.take (100 - q.length))
        ∧ (processFrames w fs).sess.state = .OpeningWebSocket
        ∧ (processFrames w fs).active = w.active := by
  induction fs with
  | nil =>
    intro w q hst hq
    refine ⟨?_, hst, rfl⟩
    simpa [processFrames] using hq
  | cons f fs ih =>
    intro w q hst hq
    have hpres := onMediaRecorderData_preserves w f
    have hqueue := onMediaRecorderData_opening_queue w f q hst hq
    have hst' : (onMediaRecorderData w f).1.sess.state = .OpeningWebSocket := by
      rw [hpres.1, hst]
    have hstep : processFrames w (f :: fs)
        = processFrames (onMediaRecorderData w f).1 fs := rfl
    by_cases hlen : q.length < 100
    · rw [if_pos hlen] at hqueue
      have ih' := ih (onMediaRecorderData w f).1 (q ++ [f]) hst' hqueue
      obtain ⟨k, hk⟩ : ∃ k, 100 - q.length = k + 1 := ⟨100 - q.length - 1, by omega⟩
      refine ⟨?_, by rw [hstep]; exact ih'.2.1, by rw [hstep, ih'.2.2, hpres.2]⟩
      rw [hstep, ih'.1]
      have hlen2 : 100 - (q ++ [f]).length = k := by
        simp only [List.length_append, List.length_cons, List.length_nil]
        omega
      rw [hlen2, hk, List.take_succ_cons, List.append_assoc, List.singleton_append]
    · rw [if_neg hlen] at hqueue
      have ih' := ih (onMediaRecorderData w f).1 q hst' hqueue
      have h0 : 100 - q.length = 0 := by omega
      refine ⟨?_, by rw [hstep]; exact ih'.2.1, by rw [hstep, ih'.2.2, hpres.2]⟩
      rw [hstep, ih'.1, h0]
      simp

/-! ## Claims C8 and C6: `start()` and the pending queue -/

/-- C8: `start()` succeeds exactly when the session is in `Init`, no
session is active process-wide, and the API key is set.  On failure it
returns the thrown usage error with the global flag and the whole session
unchanged and nothing emitted (so the active first session, which `start`
never touches, is unaffected); on success it sets the global flag, issues
the capture request, and moves the session to `RequestingMedia` without
changing any other field. -/
theorem c8_start (w : World) :
    ((start w).2.2 = none ↔
      (w.sess.state = .Init ∧ w.active = false ∧ w.sess.apiKey ≠ none))
    ∧ ((start w).2.2 ≠ none → (start w).1 = w ∧ (start w).2.1 = [])
    ∧ ((start w).2.2 = none →
        (start w).1.active = true
        ∧ (start w).1.sess = { w.sess with state := .RequestingMedia }
        ∧ (start w).2.1 = [Emit.requestUserMedia]) := by
  by_cases h1 : w.sess.state = .Init <;>
    by_cases h2 : w.active <;>
      by_cases h3 : w.sess.apiKey = none <;>
        simp [start, h1, h2, h3]

/-- C8 witness: a fresh configured session starts; a second session in
`Init` with the key set but the global flag held fails with the session
and flag untouched. -/
theorem c8_start_witness :
    (start ⟨false, { newRecordTranscribe with apiKey := some "k" }⟩).2.2 = none
    ∧ (start ⟨true, { newRecordTranscribe with apiKey := some "k" }⟩).1
        = ⟨true, { newRecordTranscribe with apiKey := some "k" }⟩ := by
  have h1 := (c8_start ⟨false, { newRecordTranscribe with apiKey := some "k" }⟩).1.mpr
    ⟨rfl, rfl, by simp [newRecordTranscribe]⟩
  have h2 := (c8_start ⟨true, { newRecordTranscribe with apiKey := some "k" }⟩).2.1
    (by simp [start, newRecordTranscribe])
  exact ⟨h1, h2.1⟩

/-- C6: starting from the empty queue in state `OpeningWebSocket`, a
sequence of encoded frames leaves exactly its first 100 frames in the
pending queue, in production order: after any prefix the queue holds that
prefix truncated to 100 entries (so never more than 100), later frames
are dropped, and the session does not fail (state and global flag are
unchanged). -/
theorem c6_pending_queue_bound (w : World) (fs : List Frame)
    (hst : w.sess.state = .OpeningWebSocket)
    (hq : w.sess.queuedMessages = some []) :
    (processFrames w fs).sess.queuedMessages = some (fs.take 100)
    ∧ (processFrames w fs).sess.state = .OpeningWebSocket
    ∧ (processFrames w fs).active = w.active
    ∧ (∀ n : ℕ, (processFrames w (fs.take n)).sess.queuedMessages
        = some ((fs.take n).take 100))
    ∧ (∀ n : ℕ,
        ((processFrames w (fs.take n)).sess.queuedMessages.getD []).length ≤ 100) := by
  have hmain := processFrames_opening fs w [] hst hq
  refine ⟨by simpa using hmain.1, hmain.2.1, hmain.2.2, ?_, ?_⟩
  · intro n
    have h := processFrames_opening (fs.take n) w [] hst hq
    simpa using h.1
  · intro n
    have h := processFrames_opening (fs.take n) w [] hst hq
    have h1 := h.1
    simp only [List.nil_append, Nat.sub_zero, List.length_nil] at h1
    rw [h1]
    simp [List.length_take]

/-- C6 witness: 101 frames produced before transport readiness leave
exactly the first 100 queued. -/
theorem c6_pending_queue_bound_witness :
    (processFrames
        ⟨true, { newRecordTranscribe with state := State.OpeningWebSocket, queuedMessages := some [] }⟩
        (List.replicate 101 [7])).sess.queuedMessages
      = some (List.replicate 100 [7]) := by
  have h := (c6_pending_queue_bound
      ⟨true, { newRecordTranscribe with state := State.OpeningWebSocket, queuedMessages := some [] }⟩
      (List.replicate 101 [7]) rfl rfl).1
  rw [h]
  decide

theorem mem_keys_ite (k : String) (c : Prop) [Decidable c]
    (l : List (String × JsonV)) :
    (k ∈ (if c then l else []).map Prod.fst) ↔ (c ∧ k ∈ l.map Prod.fst) := by
  by_cases hc : c
  · simp [hc]
  · simp [hc]

/-! ## Claim C7: the transport-open handshake -/

/-- C7: a transport open event in `OpeningWebSocket` emits exactly one
handshake message first — carrying the required `api_key`,
`sample_rate_hertz` (rounded to an integer), `include_nonfinal` and
`speech_context` fields, and each optional field exactly when its
configured value is non-default — then every queued frame in FIFO order;
the queue is nulled, the state becomes `Running`, and the started callback
fires (when registered).  An open event in any other state changes
nothing. -/
theorem c7_open_handshake (w : World) (sampleRate : ℚ) (q : List Frame) :
    (w.sess.state = .OpeningWebSocket → w.sess.queuedMessages = some q →
      (onWebSocketOpen w sampleRate).2
        = .sendRequest (buildRequest w.sess sampleRate)
            :: (q.map Emit.sendFrame
                ++ (if w.sess.cbStarted then [Emit.startedCb] else []))
      ∧ (onWebSocketOpen w sampleRate).1.sess.state = .Running
      ∧ (onWebSocketOpen w sampleRate).1.sess.queuedMessages = none
      ∧ (onWebSocketOpen w sampleRate).1.active = w.active)
    ∧ (w.sess.state ≠ .OpeningWebSocket →
        onWebSocketOpen w sampleRate = (w, []))
    ∧ (buildRequest w.sess sampleRate).lookup "api_key"
        = some (match w.sess.apiKey with | some k => .jstr k | none => .jnull)
    ∧ (buildRequest w.sess sampleRate).lookup "sample_rate_hertz"
        = some (.jnum (jsRound sampleRate))
    ∧ (buildRequest w.sess sampleRate).lookup "include_nonfinal"
        = some (.jbool w.sess.includeNonFinal)
    ∧ (buildRequest w.sess sampleRate).lookup "speech_context"
        = some w.sess.speechContext
    ∧ ("enable_endpoint_detection"
          ∈ (buildRequest w.sess sampleRate).map Prod.fst
        ↔ w.sess.enableEndpointDetection = true)
    ∧ ("enable_streaming_speaker_diarization"
          ∈ (buildRequest w.sess sampleRate).map Prod.fst
        ↔ w.sess.enableStreamingSpeakerDiarization = true)
    ∧ ("enable_global_speaker_diarization"
          ∈ (buildRequest w.sess sampleRate).map Prod.fst
        ↔ w.sess.enableGlobalSpeakerDiarization = true)
    ∧ ("min_num_speakers" ∈ (buildRequest w.sess sampleRate).map Prod.fst
        ↔ w.sess.minNumSpeakers ≠ 0)
    ∧ ("max_num_speakers" ∈ (buildRequest w.sess sampleRate).map Prod.fst
        ↔ w.sess.maxNumSpeakers ≠ 0)
    ∧ ("enable_speaker_identification"
          ∈ (buildRequest w.sess sampleRate).map Prod.fst
        ↔ w.sess.enableSpeakerIdentification = true)
    ∧ ("cand_speaker_names" ∈ (buildRequest w.sess sampleRate).map Prod.fst
        ↔ w.sess.enableSpeakerIdentification = true)
    ∧ ("enable_profanity_filter" ∈ (buildRequest w.sess sampleRate).map Prod.fst
        ↔ w.sess.enableProfanityFilter = true)
    ∧ ("content_moderation_phrases"
          ∈ (buildRequest w.sess sampleRate).map Prod.fst
        ↔ w.sess.contentModerationPhrases ≠ [])
    ∧ ("enable_dictation" ∈ (buildRequest w.sess sampleRate).map Prod.fst
        ↔ w.sess.enableDictation = true)
    ∧ ("model" ∈ (buildRequest w.sess sampleRate).map Prod.fst
        ↔ w.sess.model ≠ "") := by
  refine ⟨?_, ?_, ?_, ?_, ?_, ?_, ?_, ?_, ?_, ?_, ?_, ?_, ?_, ?_, ?_, ?_, ?_⟩
  · intro hst hq
    rw [onWebSocketOpen, if_neg (by simp [hst])]
    refine ⟨by simp [hq], rfl, rfl, rfl⟩
  · intro h
    rw [onWebSocketOpen, if_pos h]
  all_goals simp [buildRequest, List.lookup, mem_keys_ite]

/-- C7 witness: an opening session with dictation enabled and one queued
frame. -/
theorem c7_open_handshake_witness :
    (onWebSocketOpen
        ⟨true, { newRecordTranscribe with state := State.OpeningWebSocket, apiKey := some "k", queuedMessages := some [[1]], cbStarted := true, enableDictation := true }⟩
        44100).1.sess.state = State.Running
    ∧ (onWebSocketOpen
        ⟨true, { newRecordTranscribe with state := State.OpeningWebSocket, apiKey := some "k", queuedMessages := some [[1]], cbStarted := true, enableDictation := true }⟩
        44100).1.sess.queuedMessages = none
    ∧ "enable_dictation"
        ∈ (buildRequest
            { newRecordTranscribe with state := State.OpeningWebSocket, apiKey := some "k", queuedMessages := some [[1]], cbStarted := true, enableDictation := true }
            44100).map Prod.fst
    ∧ "model"
        ∉ (buildRequest
            { newRecordTranscribe with state := State.OpeningWebSocket, apiKey := some "k", queuedMessages := some [[1]], cbStarted := true, enableDictation := true }
            44100).map Prod.fst := by
  have h := c7_open_handshake
    ⟨true, { newRecordTranscribe with state := State.OpeningWebSocket, apiKey := some "k", queuedMessages := some [[1]], cbStarted := true, enableDictation := true }⟩
    44100 [[1]]
  obtain ⟨h1, _, _, _, _, _, _, _, _, _, _, _, _, _, _, h16, h17⟩ := h
  refine ⟨(h1 rfl rfl).2.1, (h1 rfl rfl).2.2.1, h16.mpr rfl, ?_⟩
  intro hmem
  exact (h17.mp hmem) rfl

/-! ## Claim C1: transport close dispatch -/

/-- C1: a transport close in a Transport-bearing state dispatches on the
close code and the parsed reason: normal closure with tag `eof` completes
the session when it is `FinishingProcessing` and otherwise fails it with
`other_asr_error` / `"Unexpected EOF received."`; a reason not matching
the status grammar fails it with `other_asr_error` and the raw reason; a
non-1000 code fails it with `websocket_closed` and a message carrying the
code and reason; a close in any non-Transport-bearing (including
terminal) state changes nothing.  (`handleError` / `handleFinished` enter
`Error` / `Finished`, clear the global flag, keep the result, and fire the
registered terminal callback with the given status and message.) -/
theorem c1_close_dispatch (w : World) (code : ℤ) (reason : String) :
    (isWebSocketState w.sess.state = true → code = 1000 →
      (∀ msg, statusMessageExec reason = some ("eof", msg) →
        (w.sess.state = .FinishingProcessing →
          onWebSocketClose w code reason = handleFinished w)
        ∧ (w.sess.state ≠ .FinishingProcessing →
          onWebSocketClose w code reason
            = handleError w "other_asr_error" "Unexpected EOF received."))
      ∧ (statusMessageExec reason = none →
        onWebSocketClose w code reason
          = handleError w "other_asr_error" reason))
    ∧ (isWebSocketState w.sess.state = true → code ≠ 1000 →
      onWebSocketClose w code reason
        = handleError w "websocket_closed"
            ("WebSocket closed: code=" ++ toString code ++ ", reason=" ++ reason))
    ∧ (isWebSocketState w.sess.state = false →
      onWebSocketClose w code reason = (w, []))
    ∧ (∀ st msg, (handleError w st msg).1.sess.state = .Error
        ∧ (handleError w st msg).1.active = false
        ∧ (handleError w st msg).1.sess.result = w.sess.result
        ∧ (handleError w st msg).2
            = if w.sess.cbError then [Emit.errorCb st msg] else [])
    ∧ (handleFinished w).1.sess.state = .Finished
    ∧ (handleFinished w).1.active = false
    ∧ (handleFinished w).1.sess.result = w.sess.result
    ∧ (handleFinished w).2
        = (if w.sess.cbFinished then [Emit.finishedCb] else []) := by
  refine ⟨?_, ?_, ?_, fun st msg => ⟨rfl, rfl, rfl, rfl⟩, rfl, rfl, rfl, rfl⟩
  · intro hws hc
    constructor
    · intro msg hm
      constructor
      · intro hfp
        rw [onWebSocketClose, if_neg (by simp [hws]), if_pos hc, hm]
        simp [hfp]
      · intro hfp
        rw [onWebSocketClose, if_neg (by simp [hws]), if_pos hc, hm]
        simp [hfp]
    · intro hm
      rw [onWebSocketClose, if_neg (by simp [hws]), if_pos hc, hm]
  · intro hws hc
    rw [onWebSocketClose, if_neg (by simp [hws]), if_neg hc]
  · intro hws
    rw [onWebSocketClose, if_pos (by simp [hws])]

/-- C1 witness: `<eof>` in `FinishingProcessing` finishes; `<eof>` in
`Running` errors; an unparseable reason errors with the raw reason; a
non-normal code errors with `websocket_closed`; a close in `Init` is
ignored. -/
theorem c1_close_dispatch_witness :
    (onWebSocketClose
        ⟨true, { newRecordTranscribe with state := State.FinishingProcessing, cbFinished := true, cbError := true }⟩
        1000 "<eof> done").1.sess.state = State.Finished
    ∧ (onWebSocketClose
        ⟨true, { newRecordTranscribe with state := State.Running, cbError := true }⟩
        1000 "<eof> done").1.sess.state = State.Error
    ∧ (onWebSocketClose
        ⟨true, { newRecordTranscribe with state := State.Running, cbError := true }⟩
        1000 "garbage").2
        = [Emit.errorCb "other_asr_error" "garbage"]
    ∧ (onWebSocketClose
        ⟨true, { newRecordTranscribe with state := State.Running, cbError := true }⟩
        1006 "").2
        = [Emit.errorCb "websocket_closed" "WebSocket closed: code=1006, reason="]
    ∧ onWebSocketClose ⟨false, newRecordTranscribe⟩ 1000 "<eof> done"
        = (⟨false, newRecordTranscribe⟩, []) := by
  have hfp := c1_close_dispatch
    ⟨true, { newRecordTranscribe with state := State.FinishingProcessing, cbFinished := true, cbError := true }⟩
    1000 "<eof> done"
  have hrun := c1_close_dispatch
    ⟨true, { newRecordTranscribe with state := State.Running, cbError := true }⟩
    1000 "<eof> done"
  have hgarb := c1_close_dispatch
    ⟨true, { newRecordTranscribe with state := State.Running, cbError := true }⟩
    1000 "garbage"
  have hcode := c1_close_dispatch
    ⟨true, { newRecordTranscribe with state := State.Running, cbError := true }⟩
    1006 ""
  have hinit := c1_close_dispatch ⟨false, newRecordTranscribe⟩ 1000 "<eof> done"
  refine ⟨?_, ?_, ?_, ?_, hinit.2.2.1 rfl⟩
  · rw [((hfp.1 rfl rfl).1 "done" (by decide)).1 rfl]
    rfl
  · rw [((hrun.1 rfl rfl).1 "done" (by decide)).2 (by decide)]
    rfl
  · rw [(hgarb.1 rfl rfl).2 (by decide)]
    rfl
  · rw [hcode.2.1 rfl (by decide)]
    have hs : ("WebSocket closed: code=" ++ toString (1006 : ℤ) ++ ", reason=" ++ "")
        = "WebSocket closed: code=1006, reason=" := by decide
    rw [hs]
    exact rfl

end WebVoice
